import Mathlib

/-!
# SparkBox core — shallow embedding and verification

A shallow embedding of the SparkBox dashboard core (module lifecycle,
config allowlist/schema, container gateway, backup engine) translated from
the JavaScript sources:

* `src/unnamed/part_004` — backup engine (`create`, `list`, `getPath`,
  `decrypt`) and docker gateway (`listContainers`, `getContainerStats`,
  `validateSparkBoxContainer`, `startContainer`, `stopContainer`,
  `restartContainer`, `streamLogs`);
* `src/unnamed/part_003` — modules lifecycle library (`getEnabledModules`,
  `listRich`, `enable`, `disable`);
* `src/dashboard/lib/modules.js` — the `MODULE_INFO`-based variant of the
  lifecycle library;
* `src/dashboard/server.js` — `getAllowedConfigKeys`, `buildConfigSchema`,
  the `GET /api/config` masking and the `PUT /api/config` allowlist check;
* `src/dashboard/public/js/app.js` — the read-only rendering rule for
  settings fields.

Filesystem state is modelled as an association list of file name to byte
content, byte strings as `List Nat`, JavaScript numbers as `ℚ` (the stats
arithmetic involves only exact integer samples and two-decimal rounding),
and the external AES-256-GCM cipher as an explicit `AEAD` parameter whose
contract (round trip, tag rejection under a wrong key) appears as
hypotheses where a theorem depends on it.
-/

/-- Error taxonomy of the core (spec §7). -/
inductive Err where
  | validationError
  | preconditionError
  | notFound
  | authenticationError
  | daemonError
  deriving DecidableEq, Repr

/-- Byte strings (`Buffer` contents) as lists of naturals. -/
abbrev Bytes := List Nat

/-- `chPre pat l` decides whether `pat` is a leading segment of `l`
(character-list version of JavaScript `String.startsWith`). -/
def chPre : List Char → List Char → Bool
  | [], _ => true
  | _ :: _, [] => false
  | a :: as, b :: bs => a == b && chPre as bs

/-- `chSuf pat l` decides whether `pat` is a trailing segment of `l`
(character-list version of JavaScript `String.endsWith`). -/
def chSuf (pat l : List Char) : Bool :=
  chPre pat.reverse l.reverse

/-- `chInfix pat l` decides whether `pat` occurs inside `l`
(character-list version of JavaScript `String.includes`). -/
def chInfix : List Char → List Char → Bool
  | pat, [] => pat.isEmpty
  | pat, c :: rest => chPre pat (c :: rest) || chInfix pat rest

/-- JavaScript `s.startsWith(pre)`. -/
def strStartsWith (s pre : String) : Bool := chPre pre.data s.data

/-- JavaScript `s.endsWith(suf)`. -/
def strEndsWith (s suf : String) : Bool := chSuf suf.data s.data

/-- JavaScript `s.includes(pat)`. -/
def strIncludes (s pat : String) : Bool := chInfix pat.data s.data

/-- Node `path.basename` (POSIX): drop trailing separators, then keep the
segment after the last separator; a string of only separators gives `"/"`,
the empty string gives `""`. -/
def jsBasename (s : String) : String :=
  if ((s.data.reverse.dropWhile (fun c => c == '/')).isEmpty : Bool) then
    (if (s.data.reverse.isEmpty : Bool) then "" else "/")
  else ⟨((s.data.reverse.dropWhile (fun c => c == '/')).takeWhile
          (fun c => !(c == '/'))).reverse⟩

/-- JavaScript `s.replace(pat, rep)` for a plain-string pattern: replace the
first occurrence only. -/
def chReplaceFirst (pat rep : List Char) : List Char → List Char
  | [] => []
  | c :: rest =>
    if chPre pat (c :: rest) then rep ++ (c :: rest).drop pat.length
    else c :: chReplaceFirst pat rep rest

/-- String wrapper for `chReplaceFirst`. -/
def strReplaceFirst (s pat rep : String) : String :=
  ⟨chReplaceFirst pat.data rep.data s.data⟩


/-! ## Filesystem model

The backups directory is modelled as an association list of file name to
byte content; `fsWrite` overwrites, `fsUnlink` removes. -/

abbrev FsState := List (String × Bytes)

/-- Look a file up by name (`fs.readFile` / `fs.access`). -/
def fsLookup (name : String) (st : FsState) : Option Bytes :=
  (st.find? (fun p => p.1 == name)).map (fun p => p.2)

/-- Remove every entry with the given name. -/
def fsErase (name : String) (st : FsState) : FsState :=
  st.filter (fun p => !(p.1 == name))

/-- `fs.writeFile`: overwrite the file. -/
def fsWrite (name : String) (content : Bytes) (st : FsState) : FsState :=
  (name, content) :: fsErase name st

/-- `fs.unlink`: delete the file. -/
def fsUnlink (name : String) (st : FsState) : FsState :=
  fsErase name st

/-! ## BackupEngine (`src/unnamed/part_004`, backup library)

`ALGORITHM = aes-256-gcm`, `KEY_LENGTH = 32`, `IV_LENGTH = 16`,
`AUTH_TAG_LENGTH = 16`. The Node `crypto` cipher and the `scrypt` key
derivation are external collaborators: they enter the embedding as an
explicit `AEAD` record and a `kdf` function, and the theorems that depend
on their cryptographic contract state that contract as hypotheses. -/

def IV_LENGTH : Nat := 16
def AUTH_TAG_LENGTH : Nat := 16

/-- An authenticated cipher: `enc key iv plaintext = (ciphertext, authTag)`;
`dec key iv authTag ciphertext` returns the plaintext or `none` on tag
mismatch (`decipher.final()` throwing). -/
structure AEAD where
  enc : Bytes → Bytes → Bytes → Bytes × Bytes
  dec : Bytes → Bytes → Bytes → Bytes → Option Bytes

/-- Result record of `create` (the `size`/`created`/`path` fields carry no
logic and are omitted). -/
structure BackupResult where
  filename : String
  encrypted : Bool
  deriving DecidableEq, Repr

/-- Filesystem effects of one `create` call, in execution order. -/
inductive FsEvent where
  | write (name : String) (content : Bytes)
  | unlink (name : String)
  deriving DecidableEq, Repr

/-- The fixed backup filename prefix. -/
def BACKUP_PRE : String := "sparkbox-backup-"

/-- `create(sbRoot, encrypt)`: write the tar archive, then — when `encrypt`
is requested and a backup secret is configured (JavaScript truthiness: a
configured secret is a nonempty string) — derive the key, encrypt with a
fresh `iv`, persist `iv ∥ authTag ∥ ciphertext`, and only then unlink the
plaintext tar. `tarBytes` stands for the archive bytes the external `tar`
invocation produced and `iv` for the `crypto.randomBytes(IV_LENGTH)` draw. -/
def create (aead : AEAD) (kdf : String → Bytes) (secret : Option String)
    (ts : String) (tarBytes iv : Bytes) (encrypt : Bool) (st : FsState) :
    BackupResult × FsState × List FsEvent :=
  let tarFilename := BACKUP_PRE ++ ts ++ ".tar.gz"
  let st1 := fsWrite tarFilename tarBytes st
  match encrypt, secret with
  | true, some s =>
    if s = "" then (⟨tarFilename, false⟩, st1, [.write tarFilename tarBytes])
    else
      let encFilename := BACKUP_PRE ++ ts ++ ".tar.gz.enc"
      let key := kdf s
      let ct := (aead.enc key iv tarBytes).1
      let tag := (aead.enc key iv tarBytes).2
      let encBytes := iv ++ tag ++ ct
      let st2 := fsWrite encFilename encBytes st1
      let st3 := fsUnlink tarFilename st2
      (⟨encFilename, true⟩, st3,
        [.write tarFilename tarBytes, .write encFilename encBytes,
         .unlink tarFilename])
  | _, _ => (⟨tarFilename, false⟩, st1, [.write tarFilename tarBytes])

/-- One entry of `list()`. -/
structure BackupEntry where
  filename : String
  encrypted : Bool
  deriving DecidableEq, Repr

/-- `list()`: enumerate files matching the fixed prefix and one of the two
suffixes; `encrypted` is the `.enc` suffix test. (The source sorts by
mtime descending; the embedding keeps directory order, which the claims
do not depend on.) -/
def backupList (st : FsState) : List BackupEntry :=
  st.filterMap (fun p =>
    if strStartsWith p.1 BACKUP_PRE
        && (strEndsWith p.1 ".tar.gz" || strEndsWith p.1 ".tar.gz.enc") then
      some ⟨p.1, strEndsWith p.1 ".enc"⟩
    else none)

/-- `getPath(sbRoot, filename)`: sanitize to a base name, reject anything
not matching `sparkbox-backup-*.tar.gz(.enc)`, then check existence
(`fs.access`) and return the joined path. -/
def getPath (sbRoot : String) (st : FsState) (filename : String) :
    Except Err String :=
  let sanitized := jsBasename filename
  if !(strStartsWith sanitized BACKUP_PRE) then .error .validationError
  else if !(strEndsWith sanitized ".tar.gz" || strEndsWith sanitized ".tar.gz.enc") then
    .error .validationError
  else
    match fsLookup sanitized st with
    | none => .error .notFound
    | some _ => .ok (sbRoot ++ "/backups/" ++ sanitized)

/-- `decrypt(sbRoot, filename)`: only `.tar.gz.enc` names are accepted;
fails when no secret is configured; splits the file as
`iv ∥ authTag ∥ ciphertext`, re-derives the key and authenticates; on
success writes the plaintext next to the encrypted file (name with the
first `.enc` removed) and returns it. -/
def decrypt (aead : AEAD) (kdf : String → Bytes) (secret : Option String)
    (filename : String) (st : FsState) :
    Except Err (Bytes × String × FsState) :=
  let sanitized := jsBasename filename
  if !(strEndsWith sanitized ".tar.gz.enc") then .error .validationError
  else
    match secret with
    | none => .error .preconditionError
    | some s =>
      if s = "" then .error .preconditionError
      else
        match fsLookup sanitized st with
        | none => .error .notFound
        | some data =>
          let iv := data.take IV_LENGTH
          let tag := (data.drop IV_LENGTH).take AUTH_TAG_LENGTH
          let encrypted := data.drop (IV_LENGTH + AUTH_TAG_LENGTH)
          let key := kdf s
          match aead.dec key iv tag encrypted with
          | none => .error .authenticationError
          | some pt =>
            let tmpName := strReplaceFirst sanitized ".enc" ""
            .ok (pt, tmpName, fsWrite tmpName pt st)

/-! ## ContainerGateway (`src/unnamed/part_004`, docker library)

The Docker daemon is modelled as the list of containers it would
enumerate (`docker.listContainers({ all: true })`): each has a full `Id`,
its `Names` (leading `/` included, as the daemon reports them) and the
raw cumulative stats sample the daemon returns for it. The embedding
covers the branch with a live Docker socket; the mock/demo branch guarded
by `if (!docker)` is dead in production and not modelled. -/

/-- The raw stats sample (`container.stats({ stream: false })`), flattened
to the fields the code reads. Missing JSON fields read as `0` (the code
guards each with `|| …`). -/
structure RawStats where
  cpuTotal : Nat
  precpuTotal : Nat
  systemCpu : Nat
  presystemCpu : Nat
  onlineCpus : Nat
  memUsage : Nat
  memLimit : Nat
  deriving DecidableEq, Repr

/-- A container as the daemon enumerates it. -/
structure ContainerInfo where
  Id : String
  Names : List String
  rawStats : RawStats
  deriving DecidableEq, Repr

/-- JavaScript `n.replace('/', '')`: remove the first `/`. -/
def stripFirstSlash (n : String) : String := strReplaceFirst n "/" ""

/-- The managed-prefix check of `validateSparkBoxContainer`: the identifier
resolves to some enumerated container (by id prefix or exact name) whose
name list carries the `sb-` prefix. -/
def validateSparkBoxContainer (d : List ContainerInfo) (cid : String) : Bool :=
  d.any (fun c =>
    (strStartsWith c.Id cid || c.Names.any (fun n => stripFirstSlash n == cid))
    && c.Names.any (fun n => strStartsWith n "/sb-"))

/-- Daemon-side resolution of `docker.getContainer(containerId)` followed
by an operation: the daemon accepts an id prefix or an exact name,
regardless of any `sb-` prefix. -/
def resolveContainer (d : List ContainerInfo) (cid : String) :
    Option ContainerInfo :=
  d.find? (fun c =>
    strStartsWith c.Id cid || c.Names.any (fun n => stripFirstSlash n == cid))

/-- Two-decimal rounding, `Math.round(x * 100) / 100`. -/
def jsRound2 (q : ℚ) : ℚ := (round (q * 100) : ℤ) / 100

/-- The computed stats payload of `getContainerStats`. -/
structure StatsResult where
  cpu : ℚ
  memUsage : Nat
  memLimit : Nat
  memPercent : ℚ
  deriving DecidableEq, Repr

/-- The arithmetic of `getContainerStats` (lines 205–219): CPU percent from
the two cumulative samples, `online_cpus || 1`, memory percent from
`usage || 0` and `limit || 1`, both rounded to two decimals. -/
def computeStats (s : RawStats) : StatsResult :=
  let cpuDelta : ℤ := (s.cpuTotal : ℤ) - (s.precpuTotal : ℤ)
  let systemDelta : ℤ := (s.systemCpu : ℤ) - (s.presystemCpu : ℤ)
  let numCpus : Nat := if s.onlineCpus = 0 then 1 else s.onlineCpus
  let cpuPercent : ℚ :=
    if 0 < systemDelta then (cpuDelta : ℚ) / (systemDelta : ℚ) * numCpus * 100
    else 0
  let memLimit : Nat := if s.memLimit = 0 then 1 else s.memLimit
  let memPercent : ℚ := (s.memUsage : ℚ) / (memLimit : ℚ) * 100
  { cpu := jsRound2 cpuPercent
    memUsage := s.memUsage
    memLimit := memLimit
    memPercent := jsRound2 memPercent }

/-- `getContainerStats(containerId)`: NOTE — the source performs no
`validateSparkBoxContainer` call here; it hands the identifier straight to
the daemon. -/
def getContainerStats (d : List ContainerInfo) (cid : String) :
    Except Err StatsResult :=
  match resolveContainer d cid with
  | none => .error .daemonError
  | some c => .ok (computeStats c.rawStats)

/-- An action performed against the daemon. -/
inductive CAction where
  | start (cid : String)
  | stop (cid : String)
  | restart (cid : String)
  deriving DecidableEq, Repr

/-- `restartContainer`: validates the managed prefix first; failure yields
`'Container not found'` and no action. -/
def restartContainer (d : List ContainerInfo) (cid : String) :
    Except Err CAction :=
  if validateSparkBoxContainer d cid then .ok (.restart cid)
  else .error .notFound

/-- `stopContainer`: validates the managed prefix first. -/
def stopContainer (d : List ContainerInfo) (cid : String) :
    Except Err CAction :=
  if validateSparkBoxContainer d cid then .ok (.stop cid)
  else .error .notFound

/-- `startContainer`: validates the managed prefix first. -/
def startContainer (d : List ContainerInfo) (cid : String) :
    Except Err CAction :=
  if validateSparkBoxContainer d cid then .ok (.start cid)
  else .error .notFound

/-- `streamLogs(containerId)`: NOTE — the source performs no
`validateSparkBoxContainer` call here either; the daemon resolves the
identifier and the log stream of that container (its `Id` here) is
returned. -/
def streamLogs (d : List ContainerInfo) (cid : String) : Except Err String :=
  match resolveContainer d cid with
  | none => .error .daemonError
  | some c => .ok c.Id

/-! ## ModuleLifecycleManager (`src/unnamed/part_003`)

The filesystem inputs of the library are explicit parameters:

* `dirs` — `getAvailableModuleDirs` (subdirectories of `modules/` holding
  a `docker-compose.yml`);
* `metaOf` — `readComposeMetadata` (the parsed `x-sparkbox` block, `none`
  when the file is missing or unparsable);
* `servicesOf` — `readComposeServices` (the `container_name` entries of
  the compose `services:` section);
* the persisted enabled set (`state/modules.conf`) as a list of ids. -/

def CORE_MODULES : List String := ["core", "dashboard"]

/-- One `env_vars` entry of an `x-sparkbox` block. `Option` distinguishes
an absent YAML field from an explicit value (JavaScript `undefined`). -/
structure EnvVarDef where
  label : Option String := none
  prompt : Option String := none
  vtype : Option String := none
  config_editable : Option Bool := none
  dangerous : Option Bool := none
  deriving DecidableEq, Repr

/-- The `x-sparkbox` metadata block, restricted to the fields the verified
operations read. -/
structure SBMeta where
  title : Option String := none
  required : Option Bool := none
  env_vars : Option (List (String × EnvVarDef)) := none
  deriving DecidableEq, Repr

/-- JavaScript `a || b` for an optional string: an absent or empty string
falls through to the default. -/
def jsOrStr (o : Option String) (dflt : String) : String :=
  match o with
  | none => dflt
  | some s => if s = "" then dflt else s

/-- The fields of a `listRich` result record that the config surface
reads. -/
structure RichModule where
  id : String
  name : String
  required : Bool
  env_vars : Option (List (String × EnvVarDef))
  enabled : Bool
  deriving DecidableEq, Repr

/-- `listRich` (part_003 lines 100–137): one record per discovered module
directory with parsable metadata; `required` is `meta.required === true`
or core membership; `enabled` is membership in the persisted set. -/
def listRich (enabled : List String) (dirs : List String)
    (metaOf : String → Option SBMeta) : List RichModule :=
  dirs.filterMap (fun moduleId =>
    match metaOf moduleId with
    | none => none
    | some meta =>
      some { id := moduleId
             name := jsOrStr meta.title moduleId
             required := meta.required == some true
                           || moduleId ∈ CORE_MODULES
             env_vars := meta.env_vars
             enabled := moduleId ∈ enabled })

/-- `enable` (part_003 lines 139–162): reject an id without a module
directory; reject a required/core module; no-op when already enabled;
otherwise append and persist (the external `sparkbox up` deployment is
triggered after the successful persist). -/
def enable (dirs : List String) (metaOf : String → Option SBMeta)
    (state : List String) (moduleName : String) :
    Except Err (List String) :=
  if moduleName ∉ dirs then .error .validationError
  else if (match metaOf moduleName with
           | some meta => meta.required == some true
           | none => false)
          || moduleName ∈ CORE_MODULES then .error .preconditionError
  else if moduleName ∈ state then .ok state
  else .ok (state ++ [moduleName])

/-- `disable` (part_003 lines 164–188): reject only `core`/`dashboard`;
otherwise filter the id out of the persisted set and persist, then attempt
a stop+remove for each compose-declared container (failures swallowed);
the attempted container operations are returned alongside the new set. -/
def disable (servicesOf : String → List String)
    (state : List String) (moduleName : String) :
    Except Err (List String × List String) :=
  if moduleName ∈ CORE_MODULES then .error .preconditionError
  else .ok (state.filter (fun m => !(m == moduleName)), servicesOf moduleName)

/-- The persisted set after an operation: an error leaves the file
untouched. -/
def stateAfter (state : List String) (r : Except Err (List String)) :
    List String :=
  match r with
  | .ok s => s
  | .error _ => state

/-- The persisted set after `disable`. -/
def stateAfterDisable (state : List String)
    (r : Except Err (List String × List String)) : List String :=
  match r with
  | .ok p => p.1
  | .error _ => state

/-! ## The `MODULE_INFO` variant (`src/dashboard/lib/modules.js`)

The statically tabled registry and its `enable`/`disable`, embedded under
a namespace to keep the source names. -/

namespace DashModules

/-- One `MODULE_INFO` record, restricted to the fields `enable`/`disable`
read. -/
structure ModInfo where
  services : List String
  required : Bool
  deriving DecidableEq, Repr

/-- The static `MODULE_INFO` table (ids, required flags and service
container names from lines 8–65). -/
def MODULE_INFO : List (String × ModInfo) :=
  [ ("core", ⟨["sb-npm", "sb-portainer", "sb-homepage"], true⟩),
    ("dashboard", ⟨["sb-dashboard"], true⟩),
    ("privacy", ⟨["sb-pihole", "sb-vaultwarden", "sb-authelia"], false⟩),
    ("cloud", ⟨["sb-nextcloud", "sb-nextcloud-db", "sb-nextcloud-redis"], false⟩),
    ("monitoring", ⟨["sb-uptime-kuma"], false⟩),
    ("vpn", ⟨["sb-wg-easy"], false⟩),
    ("files", ⟨["sb-filebrowser"], false⟩) ]

/-- `MODULE_INFO[name]` lookup. -/
def moduleInfo (name : String) : Option ModInfo :=
  (MODULE_INFO.find? (fun p => p.1 == name)).map (fun p => p.2)

/-- `enable` (lines 183–202): unknown id rejected, core rejected, no-op if
already enabled, else append and persist. -/
def enable (state : List String) (moduleName : String) :
    Except Err (List String) :=
  match moduleInfo moduleName with
  | none => .error .validationError
  | some _ =>
    if moduleName ∈ CORE_MODULES then .error .preconditionError
    else if moduleName ∈ state then .ok state
    else .ok (state ++ [moduleName])

/-- `disable` (lines 204–230): reject only `core`/`dashboard`; filter the
id out and persist; then best-effort stop+remove of the tabled services. -/
def disable (state : List String) (moduleName : String) :
    Except Err (List String × List String) :=
  if moduleName ∈ CORE_MODULES then .error .preconditionError
  else .ok (state.filter (fun m => !(m == moduleName)),
            match moduleInfo moduleName with
            | some info => info.services
            | none => [])

end DashModules

/-! ## Config surface (`src/dashboard/server.js` and
`src/dashboard/public/js/app.js`) -/

/-- The always-allowed system config keys (line 273). -/
def SYSTEM_CONFIG_KEYS : List String :=
  ["SB_DOMAIN", "TZ", "SB_ADMIN_PASSWORD_HASH"]

/-- `getAllowedConfigKeys` (lines 276–293): the system keys plus every
`env_vars` key whose descriptor's `config_editable` is truthy, taken from
every module `listRich` returns — the `enabled` flag is not consulted.
Membership in the JavaScript `Set` corresponds to list membership. -/
def getAllowedConfigKeys (mods : List RichModule) : List String :=
  SYSTEM_CONFIG_KEYS ++
    (mods.map (fun m =>
      match m.env_vars with
      | none => []
      | some evs =>
        evs.filterMap (fun kv =>
          if kv.2.config_editable == some true then some kv.1 else none))).flatten

/-- One field of the derived config schema. `config_editable` is `none` for
the fixed General fields (the JavaScript objects carry no such property)
and `some (def.config_editable !== false)` for module fields. -/
structure SchemaField where
  key : String
  label : String
  tip : String
  dangerous : Bool
  ftype : String
  config_editable : Option Bool
  deriving DecidableEq, Repr

/-- One group of the derived config schema. -/
structure SchemaGroup where
  title : String
  moduleId : Option String
  keys : List SchemaField
  deriving DecidableEq, Repr

/-- The fixed `General` group (lines 297–303). -/
def generalGroup : SchemaGroup :=
  { title := "General"
    moduleId := none
    keys :=
      [ ⟨"TZ", "Timezone", "Your timezone (e.g., America/New_York)",
         false, "text", none⟩,
        ⟨"SB_DOMAIN", "Domain", "Your server's domain name or IP address",
         false, "text", none⟩,
        ⟨"SB_ROOT", "Install Path", "Where SparkBox is installed (don't change this)",
         true, "text", none⟩ ] }

/-- `buildConfigSchema` (lines 296–329): the General group followed by one
group per module with declared `env_vars`; a field's `dangerous` is
`def.dangerous || false`, its `config_editable` is
`def.config_editable !== false`. -/
def buildConfigSchema (mods : List RichModule) : List SchemaGroup :=
  generalGroup ::
    mods.filterMap (fun m =>
      match m.env_vars with
      | none => none
      | some evs =>
        let keys := evs.map (fun kv =>
          { key := kv.1
            label := jsOrStr kv.2.label kv.1
            tip := jsOrStr kv.2.prompt ""
            dangerous := kv.2.dangerous == some true
            ftype := jsOrStr kv.2.vtype "text"
            config_editable := some (!(kv.2.config_editable == some false)) })
        if keys.isEmpty then none
        else some { title := m.name, moduleId := some m.id, keys := keys })

/-- The read-only rendering rule of the settings panel
(`app.js` line 662): `k.dangerous || k.config_editable === false`. -/
def renderReadonly (f : SchemaField) : Bool :=
  f.dangerous || (f.config_editable == some false)

/-- The value filter of `PUT /api/config` (line 369): reject newlines and
shell metacharacters. -/
def hasBadChars (v : String) : Bool :=
  v.data.any (fun c => c == '\n' || c == '\r' || c == '`' || c == '$')

/-- The `PUT /api/config` handler body (lines 359–379): walk the request
entries in order; any key outside the allowlist or any value with bad
characters aborts with a 400 before `config.update` is called; on success
the accumulated updates are handed to `config.update`. The returned list
is exactly what would be persisted. -/
def putConfig (allowed : List String) :
    List (String × String) → Except Err (List (String × String))
  | [] => .ok []
  | (k, v) :: rest =>
    if k ∉ allowed then .error .validationError
    else if hasBadChars v then .error .validationError
    else
      match putConfig allowed rest with
      | .error e => .error e
      | .ok updates => .ok ((k, v) :: updates)

/-- The sensitive-key test of `GET /api/config` (line 337):
`key.includes('PASSWORD') || … ('SECRET') || … ('TOKEN') || … ('KEY')`. -/
def isSensitiveKey (k : String) : Bool :=
  strIncludes k "PASSWORD" || strIncludes k "SECRET"
    || strIncludes k "TOKEN" || strIncludes k "KEY"

/-- The masking of one sensitive value (line 338): JavaScript truthiness on
a string — `''` is falsy, anything else maps to the fixed mask. -/
def maskValue (v : String) : String :=
  if v = "" then "" else "********"

/-- The `GET /api/config` response body (lines 331–347): every key whose
name contains a sensitive marker is masked; other entries pass through. -/
def sanitizeConfig (cfg : List (String × String)) : List (String × String) :=
  cfg.map (fun p =>
    if isSensitiveKey p.1 then (p.1, maskValue p.2) else p)


/-! ## Helper lemmas -/

-- Basic lemmas about the string primitives.

theorem chPre_append (p r : List Char) : chPre p (p ++ r) = true := by
  induction p with
  | nil => rfl
  | cons a as ih => simp [chPre, ih]

theorem chPre_append_left {p l : List Char} (t : List Char)
    (h : chPre p l = true) : chPre p (l ++ t) = true := by
  induction p generalizing l with
  | nil => rfl
  | cons a as ih =>
    cases l with
    | nil => simp [chPre] at h
    | cons b bs =>
      simp [chPre] at h ⊢
      exact ⟨h.1, ih h.2⟩

theorem chSuf_append (x y : List Char) (pat : List Char)
    (h : chSuf pat y = true) : chSuf pat (x ++ y) = true := by
  unfold chSuf at h ⊢
  rw [List.reverse_append]
  exact chPre_append_left _ h

theorem chSuf_self_append (x pat : List Char) : chSuf pat (x ++ pat) = true := by
  apply chSuf_append
  unfold chSuf
  have := chPre_append pat.reverse []
  simpa using this

/-- `String.data` distributes over append. -/
theorem str_data_append (s t : String) : (s ++ t).data = s.data ++ t.data := by
  cases s; cases t; rfl

theorem strStartsWith_append (p r : String) :
    strStartsWith (p ++ r) p = true := by
  unfold strStartsWith
  rw [str_data_append]
  exact chPre_append _ _

theorem strEndsWith_append (x y : String) (suf : String)
    (h : strEndsWith y suf = true) : strEndsWith (x ++ y) suf = true := by
  unfold strEndsWith at h ⊢
  rw [str_data_append]
  exact chSuf_append _ _ _ h

theorem dropWhile_eq_self_of_none {p : Char → Bool} {l : List Char}
    (h : ∀ x ∈ l, p x = false) : l.dropWhile p = l := by
  cases l with
  | nil => rfl
  | cons a as =>
    have ha : p a = false := h a (by simp)
    simp [List.dropWhile, ha]

theorem takeWhile_eq_self_of_all {p : Char → Bool} {l : List Char}
    (h : ∀ x ∈ l, p x = true) : l.takeWhile p = l := by
  induction l with
  | nil => rfl
  | cons a as ih =>
    have ha : p a = true := h a (by simp)
    have has : ∀ x ∈ as, p x = true := fun x hx => h x (by simp [hx])
    simp [List.takeWhile, ha, ih has]

/-- A nonempty string whose data has no separator is its own `jsBasename`. -/
theorem jsBasename_eq_self {s : String} (hne : s.data ≠ [])
    (h : ∀ c ∈ s.data, c ≠ '/') : jsBasename s = s := by
  unfold jsBasename
  have hmemrev : ∀ c ∈ s.data.reverse, c ≠ '/' := by
    intro c hc
    exact h c (List.mem_reverse.mp hc)
  have hdrop : s.data.reverse.dropWhile (fun c => c == '/') = s.data.reverse :=
    dropWhile_eq_self_of_none (by
      intro x hx
      simp [hmemrev x hx])
  have hrevne : s.data.reverse ≠ [] := by
    intro hrev
    exact hne (by simpa using congrArg List.reverse hrev)
  rw [hdrop]
  have hempty : s.data.reverse.isEmpty = false := by
    cases hcase : s.data.reverse with
    | nil => exact absurd hcase hrevne
    | cons a as => rfl
  rw [hempty]
  have htake : s.data.reverse.takeWhile (fun c => !(c == '/')) = s.data.reverse :=
    takeWhile_eq_self_of_all (by
      intro x hx
      simp [hmemrev x hx])
  simp only [Bool.false_eq_true, if_false, htake, List.reverse_reverse]


theorem fsErase_of_lookup_none {name : String} {st : FsState}
    (h : fsLookup name st = none) : fsErase name st = st := by
  induction st with
  | nil => rfl
  | cons p rest ih =>
    unfold fsLookup at h ih
    unfold fsErase at ih ⊢
    cases hp : (p.1 == name) with
    | true => simp [List.find?, hp] at h
    | false =>
      simp only [List.find?, hp] at h
      simp [List.filter, hp, ih h]

theorem fsLookup_write_self (name : String) (content : Bytes) (st : FsState) :
    fsLookup name (fsWrite name content st) = some content := by
  simp [fsLookup, fsWrite, List.find?]

theorem fsLookup_write_other {name other : String} (content : Bytes)
    (st : FsState) (h : other ≠ name) :
    fsLookup other (fsWrite name content st) = fsLookup other st := by
  have hne : (name == other) = false := by
    simp [h.symm]
  simp only [fsLookup, fsWrite, List.find?, hne]
  induction st with
  | nil => rfl
  | cons p rest ih =>
    unfold fsErase
    cases hp : (p.1 == name) with
    | true =>
      have hp1 : p.1 = name := by
        exact eq_of_beq hp
      have hpo : (p.1 == other) = false := by
        subst hp1
        simp [h.symm]
      simp only [List.filter, hp, Bool.not_true]
      unfold fsErase at ih
      simp only [List.find?, hpo]
      exact ih
    | false =>
      simp only [List.filter, hp, Bool.not_false]
      cases hpo : (p.1 == other) with
      | true => simp [List.find?, hpo]
      | false =>
        unfold fsErase at ih
        simp only [List.find?, hpo]
        exact ih

theorem str_append_assoc (a b c : String) : (a ++ b) ++ c = a ++ (b ++ c) := by
  cases a; cases b; cases c
  apply congrArg String.mk
  exact List.append_assoc _ _ _

theorem strEndsWith_self_append (x suf : String) :
    strEndsWith (x ++ suf) suf = true := by
  unfold strEndsWith
  rw [str_data_append]
  exact chSuf_self_append _ _

/-- The plaintext and encrypted filenames of one backup differ. -/
theorem tarName_ne_encName (ts : String) :
    (BACKUP_PRE ++ ts ++ ".tar.gz") ≠ (BACKUP_PRE ++ ts ++ ".tar.gz.enc") := by
  intro h
  have hlen := congrArg (fun s : String => s.data.length) h
  simp only [str_data_append, List.length_append] at hlen
  have h7 : (".tar.gz" : String).data.length = 7 := rfl
  have h11 : (".tar.gz.enc" : String).data.length = 11 := rfl
  rw [h7, h11] at hlen
  omega

theorem fsLookup_cons_other {name : String} (q : String × Bytes)
    (st : FsState) (h : (q.1 == name) = false) :
    fsLookup name (q :: st) = fsLookup name st := by
  simp only [fsLookup, List.find?, h]

theorem fsLookup_erase_other {a b : String} (st : FsState) (h : a ≠ b) :
    fsLookup a (fsErase b st) = fsLookup a st := by
  induction st with
  | nil => rfl
  | cons p rest ih =>
    unfold fsErase at ih ⊢
    by_cases hp1 : p.1 = b
    · have hpb : (p.1 == b) = true := by simp [hp1]
      have hba : b ≠ a := fun he => h he.symm
      have hpa : (p.1 == a) = false := by simp [hp1, hba]
      simp only [List.filter, hpb, Bool.not_true]
      rw [ih, fsLookup_cons_other p rest hpa]
    · have hpb : (p.1 == b) = false := by simp [hp1]
      simp only [List.filter, hpb, Bool.not_false]
      by_cases hpa1 : p.1 = a
      · have hpa : (p.1 == a) = true := by simp [hpa1]
        simp [fsLookup, List.find?, hpa]
      · have hpa : (p.1 == a) = false := by simp [hpa1]
        rw [fsLookup_cons_other p _ hpa, fsLookup_cons_other p rest hpa]
        exact ih

theorem fsLookup_none_not_mem {name : String} {st : FsState}
    (h : fsLookup name st = none) : ∀ b, (name, b) ∉ st := by
  induction st with
  | nil => intro b hb; simp at hb
  | cons p rest ih =>
    intro b hb
    unfold fsLookup at h ih
    cases hp : (p.1 == name) with
    | true => simp [List.find?, hp] at h
    | false =>
      simp only [List.find?, hp] at h
      rcases List.mem_cons.mp hb with heq | hmem
      · subst heq
        simp at hp
      · exact ih h b hmem

theorem take_len_append {α : Type} (l1 l2 : List α) {n : Nat}
    (h : l1.length = n) : (l1 ++ l2).take n = l1 :=
  List.take_left' h

theorem drop_len_append {α : Type} (l1 l2 : List α) {n : Nat}
    (h : l1.length = n) : (l1 ++ l2).drop n = l2 :=
  List.drop_left' h

/-- `path.basename` is the identity on a backup filename built from a
timestamp free of separators. -/
theorem jsBasename_backup_name (ts suf : String)
    (hts : ∀ c ∈ ts.data, c ≠ '/')
    (hsuf : ∀ c ∈ suf.data, c ≠ '/') :
    jsBasename (BACKUP_PRE ++ ts ++ suf) = BACKUP_PRE ++ ts ++ suf := by
  apply jsBasename_eq_self
  · intro hd
    have hlen := congrArg List.length hd
    simp only [str_data_append, List.length_append] at hlen
    have h16 : (BACKUP_PRE).data.length = 16 := rfl
    rw [h16] at hlen
    simp only [List.length_nil] at hlen
    omega
  · intro c hc
    rw [str_data_append, str_data_append] at hc
    rcases List.mem_append.mp hc with hc1 | hc2
    · rcases List.mem_append.mp hc1 with hc3 | hc4
      · have : ∀ c ∈ (BACKUP_PRE).data, c ≠ '/' := by decide
        exact this c hc3
      · exact hts c hc4
    · exact hsuf c hc2

/-- A backup filename built from the fixed prefix starts with it. -/
theorem strStartsWith_backup (ts suf : String) :
    strStartsWith (BACKUP_PRE ++ ts ++ suf) BACKUP_PRE = true := by
  rw [str_append_assoc]
  exact strStartsWith_append _ _

/-- `jsBasename` returns either the literal `"/"` or a string free of
separators. -/
theorem jsBasename_cases (s : String) :
    jsBasename s = "/" ∨ (∀ c ∈ (jsBasename s).data, c ≠ '/') := by
  unfold jsBasename
  cases h1 : ((s.data.reverse.dropWhile (fun c => c == '/')).isEmpty : Bool) with
  | true =>
    cases h2 : (s.data.reverse.isEmpty : Bool) with
    | true =>
      right
      intro c hc
      exact absurd hc (List.not_mem_nil c)
    | false =>
      left
      rfl
  | false =>
    right
    intro c hc
    have hc2 := List.mem_reverse.mp hc
    have := List.mem_takeWhile_imp hc2
    simp at this
    exact this

/-- C7: `getPath` either rejects (malformed name: ValidationError before any
filesystem access; well-formed but absent: NotFound) or returns a path
directly inside the backups directory whose base name carries the fixed
backup prefix and one of the two archive suffixes; in particular the
traversal attempt `"../../etc/passwd"` and the foreign name
`"not-a-backup.txt"` are rejected with ValidationError for every
filesystem state. -/
theorem getPath_path_safety :
    ∀ (sbRoot : String) (st : FsState) (filename : String),
      (match getPath sbRoot st filename with
       | .error e => e = .validationError ∨ e = .notFound
       | .ok p => ∃ name : String,
           p = sbRoot ++ "/backups/" ++ name
           ∧ (∀ c ∈ name.data, c ≠ '/')
           ∧ strStartsWith name BACKUP_PRE = true
           ∧ (strEndsWith name ".tar.gz" = true ∨ strEndsWith name ".tar.gz.enc" = true))
      ∧ getPath sbRoot st "../../etc/passwd" = .error .validationError
      ∧ getPath sbRoot st "not-a-backup.txt" = .error .validationError := by
  intro sbRoot st filename
  refine ⟨?_, rfl, rfl⟩
  unfold getPath
  cases hb1 : strStartsWith (jsBasename filename) BACKUP_PRE with
  | false => simp [hb1]
  | true =>
    cases hb2 : (strEndsWith (jsBasename filename) ".tar.gz"
        || strEndsWith (jsBasename filename) ".tar.gz.enc") with
    | false => simp [hb1, hb2]
    | true =>
      cases hl : fsLookup (jsBasename filename) st with
      | none => simp [hb1, hb2, hl]
      | some d =>
        simp only [hb1, hb2, hl, Bool.not_true, Bool.false_eq_true, if_false]
        refine ⟨jsBasename filename, rfl, ?_, hb1, ?_⟩
        · rcases jsBasename_cases filename with hslash | hns
          · rw [hslash] at hb1
            exact absurd hb1 (by decide)
          · exact hns
        · simpa using hb2

/-- C5: for every starting state of the persisted enabled set,
`disable("core")` and `disable("dashboard")` raise PreconditionError and
never alter the persisted enabled-module set — in both lifecycle
implementations (`src/unnamed/part_003` and
`src/dashboard/lib/modules.js`). -/
theorem disable_core_protected :
    ∀ (servicesOf : String → List String) (state : List String),
      disable servicesOf state "core" = .error .preconditionError
      ∧ disable servicesOf state "dashboard" = .error .preconditionError
      ∧ stateAfterDisable state (disable servicesOf state "core") = state
      ∧ stateAfterDisable state (disable servicesOf state "dashboard") = state
      ∧ DashModules.disable state "core" = .error .preconditionError
      ∧ DashModules.disable state "dashboard" = .error .preconditionError
      ∧ stateAfterDisable state (DashModules.disable state "core") = state
      ∧ stateAfterDisable state (DashModules.disable state "dashboard") = state := by
  intro servicesOf state
  exact ⟨rfl, rfl, rfl, rfl, rfl, rfl, rfl, rfl⟩

/-- C10: the `GET /api/config` response masks every key containing
`PASSWORD`, `SECRET`, `TOKEN` or `KEY`: a set value becomes the fixed
`'********'`, an unset value the empty string, so the response depends on
a sensitive value only through its emptiness (configurations agreeing on
keys, on non-sensitive values and on which sensitive values are empty
produce identical responses). -/
theorem config_read_masks_secrets :
    ∀ (cfg cfg2 : List (String × String)),
      (∀ p ∈ cfg, isSensitiveKey p.1 = true →
          (p.1, if p.2 = "" then "" else "********") ∈ sanitizeConfig cfg)
      ∧ (List.Forall₂ (fun p q : String × String =>
            p.1 = q.1 ∧ (if isSensitiveKey p.1 = true
                         then (p.2 = "" ↔ q.2 = "")
                         else p.2 = q.2)) cfg cfg2 →
         sanitizeConfig cfg = sanitizeConfig cfg2) := by
  intro cfg cfg2
  constructor
  · intro p hp hs
    have hmem : (p.1, maskValue p.2) ∈ sanitizeConfig cfg := by
      unfold sanitizeConfig
      apply List.mem_map.mpr
      exact ⟨p, hp, by simp [hs]⟩
    simpa [maskValue] using hmem
  · intro h
    unfold sanitizeConfig
    induction h with
    | nil => rfl
    | @cons a b l1 l2 hab htail ih =>
      simp only [List.map_cons, ih]
      congr 1
      obtain ⟨h1, h2⟩ := hab
      by_cases hsk : isSensitiveKey a.1 = true
      · rw [if_pos hsk] at h2
        have hq : isSensitiveKey b.1 = true := h1 ▸ hsk
        rw [if_pos hsk, if_pos hq]
        have hmv : maskValue a.2 = maskValue b.2 := by
          unfold maskValue
          by_cases hpe : a.2 = ""
          · rw [if_pos hpe, if_pos (h2.mp hpe)]
          · rw [if_neg hpe, if_neg (fun hq2 => hpe (h2.mpr hq2))]
        rw [h1, hmv]
      · rw [if_neg hsk] at h2
        have hq : ¬ isSensitiveKey b.1 = true := fun hb => hsk (h1 ▸ hb)
        rw [if_neg hsk, if_neg hq]
        obtain ⟨a1, a2⟩ := a
        obtain ⟨b1, b2⟩ := b
        simp only at h1 h2
        rw [h1, h2]

/-- C10 witness: a set password is masked, an empty one maps to the empty
string, and two configs differing only in the password text produce the
same response. -/
theorem config_read_masks_secrets_w :
    (("DB_PASSWORD", "********") ∈ sanitizeConfig [("DB_PASSWORD", "hunter2")])
    ∧ sanitizeConfig [("DB_PASSWORD", "hunter2"), ("TZ", "UTC")]
        = sanitizeConfig [("DB_PASSWORD", "s3cret!!"), ("TZ", "UTC")] := by
  constructor
  · have h := (config_read_masks_secrets [("DB_PASSWORD", "hunter2")] []).1
      ("DB_PASSWORD", "hunter2") (by simp) (by decide)
    simpa using h
  · exact (config_read_masks_secrets
      [("DB_PASSWORD", "hunter2"), ("TZ", "UTC")]
      [("DB_PASSWORD", "s3cret!!"), ("TZ", "UTC")]).2
      (List.Forall₂.cons ⟨rfl, by decide⟩
        (List.Forall₂.cons ⟨rfl, by decide⟩ List.Forall₂.nil))

/-- A request containing a key outside the allowlist is rejected with a 400
before `config.update` runs. -/
theorem putConfig_rejects_of_not_allowed (allowed : List String)
    (body : List (String × String)) (k v : String)
    (hmem : (k, v) ∈ body) (hk : k ∉ allowed) :
    putConfig allowed body = .error .validationError := by
  induction body with
  | nil => exact absurd hmem (List.not_mem_nil _)
  | cons p rest ih =>
    obtain ⟨k', v'⟩ := p
    rcases List.mem_cons.mp hmem with heq | hmem2
    · have hk' : k = k' ∧ v = v' := by simpa using heq
      unfold putConfig
      rw [if_pos (hk'.1 ▸ hk)]
    · by_cases h1 : k' ∉ allowed
      · unfold putConfig
        rw [if_pos h1]
      · unfold putConfig
        rw [if_neg h1]
        by_cases h2 : hasBadChars v' = true
        · rw [if_pos h2]
        · rw [if_neg h2, ih hmem2]

/-- A single allowlisted, clean-valued update goes through to
`config.update` unchanged. -/
theorem putConfig_single_ok (allowed : List String) (k v : String)
    (hk : k ∈ allowed) (hv : hasBadChars v = false) :
    putConfig allowed [(k, v)] = .ok [(k, v)] := by
  unfold putConfig
  rw [if_neg (not_not_intro hk), if_neg (by simp [hv])]
  rfl

/-- A discovered module with parsable metadata contributes its `listRich`
record. -/
theorem listRich_mem_of (enabled dirs : List String)
    (metaOf : String → Option SBMeta) (X : String) (meta : SBMeta)
    (hX : X ∈ dirs) (hm : metaOf X = some meta) :
    ({ id := X
       name := jsOrStr meta.title X
       required := meta.required == some true || decide (X ∈ CORE_MODULES)
       env_vars := meta.env_vars
       enabled := decide (X ∈ enabled) } : RichModule)
      ∈ listRich enabled dirs metaOf := by
  unfold listRich
  apply List.mem_filterMap.mpr
  refine ⟨X, hX, ?_⟩
  rw [hm]

/-- Any `config_editable` env-var key declared by any module record enters
the allowlist — the record's `enabled` flag plays no role. -/
theorem mem_allowed_of_declared (mods : List RichModule) (m : RichModule)
    (evs : List (String × EnvVarDef)) (d : EnvVarDef) (k : String)
    (hm : m ∈ mods) (hev : m.env_vars = some evs) (hkd : (k, d) ∈ evs)
    (hce : d.config_editable = some true) :
    k ∈ getAllowedConfigKeys mods := by
  unfold getAllowedConfigKeys
  apply List.mem_append.mpr
  right
  apply List.mem_flatten.mpr
  refine ⟨evs.filterMap (fun kv =>
    if kv.2.config_editable == some true then some kv.1 else none), ?_, ?_⟩
  · apply List.mem_map.mpr
    refine ⟨m, hm, ?_⟩
    rw [hev]
  · apply List.mem_filterMap.mpr
    refine ⟨(k, d), hkd, ?_⟩
    rw [hce]
    rfl

/-- The derived allowlist does not depend on the persisted enabled set. -/
theorem allowlist_enabled_independent (e1 e2 dirs : List String)
    (metaOf : String → Option SBMeta) :
    getAllowedConfigKeys (listRich e1 dirs metaOf)
      = getAllowedConfigKeys (listRich e2 dirs metaOf) := by
  unfold getAllowedConfigKeys listRich
  induction dirs with
  | nil => rfl
  | cons d rest ih =>
    cases hmd : metaOf d with
    | none =>
      simp only [List.filterMap_cons, hmd]
      exact ih
    | some meta =>
      simp only [List.filterMap_cons, hmd, List.map_cons, List.flatten_cons]
      rw [List.append_cancel_left ih]

/-- C1 counterexample: a module `x` that is **not** in the persisted
enabled set declares the `config_editable` env var `X_KEY` (a key outside
the fixed system-key set); the `PUT /api/config` allowlist accepts the
write and passes it to persistence — it is not rejected. -/
theorem configWrite_disabled_module_key_accepted :
    ("x" ∉ (["core", "dashboard"] : List String))
    ∧ ("X_KEY" ∉ SYSTEM_CONFIG_KEYS)
    ∧ putConfig
        (getAllowedConfigKeys (listRich ["core", "dashboard"] ["x"]
          (fun id => if id = "x" then
              some { env_vars := some [("X_KEY", { config_editable := some true })] }
            else none)))
        [("X_KEY", "newvalue")]
      = .ok [("X_KEY", "newvalue")] := by
  exact ⟨by decide, by decide, rfl⟩

/-- C1 (amended): the write allowlist is the fixed system keys plus the
`config_editable` env-var keys of **every discovered** module — it is
independent of the persisted enabled set. A write containing a key outside
this allowlist is rejected with a 400 before any persistence attempt; a
write to a declared `config_editable` key with a clean value is accepted —
already before `enable(X)`, and (by the independence) equally after. -/
theorem configWrite_allowlist_amended :
    ∀ (enabled enabled2 dirs : List String) (metaOf : String → Option SBMeta)
      (body : List (String × String)) (k v : String),
      ((k, v) ∈ body →
        k ∉ getAllowedConfigKeys (listRich enabled dirs metaOf) →
        putConfig (getAllowedConfigKeys (listRich enabled dirs metaOf)) body
          = .error .validationError)
      ∧ getAllowedConfigKeys (listRich enabled dirs metaOf)
          = getAllowedConfigKeys (listRich enabled2 dirs metaOf)
      ∧ (∀ (X : String) (meta : SBMeta) (evs : List (String × EnvVarDef))
            (d : EnvVarDef),
          X ∈ dirs → metaOf X = some meta → meta.env_vars = some evs →
          (k, d) ∈ evs → d.config_editable = some true →
          hasBadChars v = false →
          putConfig (getAllowedConfigKeys (listRich enabled dirs metaOf)) [(k, v)]
            = .ok [(k, v)]) := by
  intro enabled enabled2 dirs metaOf body k v
  refine ⟨?_, allowlist_enabled_independent enabled enabled2 dirs metaOf, ?_⟩
  · intro hmem hk
    exact putConfig_rejects_of_not_allowed _ body k v hmem hk
  · intro X meta evs d hX hmX hev hkd hce hv
    apply putConfig_single_ok _ _ _ ?_ hv
    exact mem_allowed_of_declared _ _ evs d k
      (listRich_mem_of enabled dirs metaOf X meta hX hmX) hev hkd hce

/-- C1 witness: with one discovered module `x` declaring `X_KEY`
(`config_editable`), a write to the undeclared `EVIL_KEY` is rejected and
a write to `X_KEY` is accepted. -/
theorem configWrite_allowlist_amended_w :
    putConfig
        (getAllowedConfigKeys (listRich ["core", "dashboard"] ["x"]
          (fun id => if id = "x" then
              some { env_vars := some [("X_KEY", { config_editable := some true })] }
            else none)))
        [("EVIL_KEY", "v")]
      = .error .validationError
    ∧ putConfig
        (getAllowedConfigKeys (listRich ["core", "dashboard"] ["x"]
          (fun id => if id = "x" then
              some { env_vars := some [("X_KEY", { config_editable := some true })] }
            else none)))
        [("X_KEY", "v")]
      = .ok [("X_KEY", "v")] := by
  constructor
  · exact (configWrite_allowlist_amended ["core", "dashboard"] [] ["x"]
      (fun id => if id = "x" then
          some { env_vars := some [("X_KEY", { config_editable := some true })] }
        else none)
      [("EVIL_KEY", "v")] "EVIL_KEY" "v").1 (by decide) (by decide)
  · exact (configWrite_allowlist_amended ["core", "dashboard"] [] ["x"]
      (fun id => if id = "x" then
          some { env_vars := some [("X_KEY", { config_editable := some true })] }
        else none)
      [("X_KEY", "v")] "X_KEY" "v").2.2 "x"
      { env_vars := some [("X_KEY", { config_editable := some true })] }
      [("X_KEY", { config_editable := some true })]
      { config_editable := some true }
      (by decide) (by decide) rfl (by decide) rfl (by decide)

/-- C2 counterexample: the module `vpn` carries `required: true` in its
descriptor (its `listRich` record reports `required = true`) and is
neither `core` nor `dashboard`; yet `disable("vpn")` succeeds and removes
it from the persisted set — the `required` flag is never consulted by
`disable`. -/
theorem disable_required_module_succeeds :
    (listRich ["core", "dashboard", "vpn"] ["vpn"]
        (fun id => if id = "vpn" then some { required := some true } else none))
      = [{ id := "vpn", name := "vpn", required := true,
           env_vars := none, enabled := true }]
    ∧ ("vpn" ∉ CORE_MODULES)
    ∧ disable (fun _ => ["sb-wg-easy"]) ["core", "dashboard", "vpn"] "vpn"
        = .ok (["core", "dashboard"], ["sb-wg-easy"]) := by
  exact ⟨rfl, by decide, rfl⟩

/-- C2 (amended): `disable(id)` fails with PreconditionError exactly when
`id ∈ {core, dashboard}`; for every other id — whatever its descriptor
says — it succeeds, removing the id from the persisted set and attempting
a stop+remove of the compose-declared containers. -/
theorem disable_required_guard_amended :
    ∀ (servicesOf : String → List String) (state : List String) (id : String),
      (id ∈ CORE_MODULES → disable servicesOf state id = .error .preconditionError)
      ∧ (id ∉ CORE_MODULES →
          disable servicesOf state id
            = .ok (state.filter (fun m => !(m == id)), servicesOf id)) := by
  intro servicesOf state id
  constructor
  · intro h
    unfold disable
    rw [if_pos h]
  · intro h
    unfold disable
    rw [if_neg h]

/-- C2 witness: `disable` on a non-core id succeeds with the filtered set,
and on `core` it fails. -/
theorem disable_required_guard_amended_w :
    disable (fun _ => ([] : List String)) ["core", "dashboard", "privacy"] "privacy"
      = .ok (["core", "dashboard"], [])
    ∧ disable (fun _ => ([] : List String)) ["core", "dashboard"] "core"
      = .error .preconditionError := by
  constructor
  · exact (disable_required_guard_amended _ _ _).2 (by decide)
  · exact (disable_required_guard_amended _ _ _).1 (by decide)

/-- C6 counterexample: `core` is a known module id (its directory is
discovered), but `enable("core")` — first call and second call alike —
raises rather than succeeding as a no-op, so the claim's "the second call
succeeds" fails at `id = "core"` (the persisted set is still unchanged). -/
theorem enable_core_second_call_fails :
    ("core" ∈ (["core", "dashboard", "vpn"] : List String))
    ∧ enable ["core", "dashboard", "vpn"] (fun _ => none) ["core", "dashboard"] "core"
        = .error .preconditionError
    ∧ enable ["core", "dashboard", "vpn"] (fun _ => none)
        (stateAfter ["core", "dashboard"]
          (enable ["core", "dashboard", "vpn"] (fun _ => none)
            ["core", "dashboard"] "core")) "core"
        = .error .preconditionError
    ∧ stateAfter ["core", "dashboard"]
        (enable ["core", "dashboard", "vpn"] (fun _ => none)
          ["core", "dashboard"] "core")
      = ["core", "dashboard"] := by
  exact ⟨by decide, rfl, rfl, rfl⟩

/-- C6 (amended): for every known module id and every persisted set,
calling `enable(id)` twice leaves the persisted set identical to calling
it once; and whenever the first call succeeds, the second call succeeds as
a no-op returning the same set (this holds in both lifecycle
implementations). The second call does **not** succeed when `enable`
rejects the id (core/dashboard, a required module, or an undiscovered
directory). -/
theorem enable_idempotent_amended :
    ∀ (dirs : List String) (metaOf : String → Option SBMeta)
      (state : List String) (id : String),
      stateAfter (stateAfter state (enable dirs metaOf state id))
          (enable dirs metaOf (stateAfter state (enable dirs metaOf state id)) id)
        = stateAfter state (enable dirs metaOf state id)
      ∧ (∀ s1, enable dirs metaOf state id = .ok s1 →
          enable dirs metaOf s1 id = .ok s1)
      ∧ (∀ s1, DashModules.enable state id = .ok s1 →
          DashModules.enable s1 id = .ok s1) := by
  intro dirs metaOf state id
  have key : ∀ s1, enable dirs metaOf state id = .ok s1 →
      enable dirs metaOf s1 id = .ok s1 := by
    intro s1 h
    unfold enable at h ⊢
    by_cases h1 : id ∈ dirs
    · rw [if_neg (not_not_intro h1)] at h ⊢
      cases h2 : ((match metaOf id with
                   | some meta => meta.required == some true
                   | none => false) || decide (id ∈ CORE_MODULES)) with
      | true =>
        rw [h2] at h
        simp at h
      | false =>
        rw [h2] at h
        simp only [Bool.false_eq_true, if_false] at h ⊢
        by_cases h3 : id ∈ state
        · rw [if_pos h3] at h
          have hs : state = s1 := by
            injection h
          subst hs
          rw [if_pos h3]
        · rw [if_neg h3] at h
          have hs : state ++ [id] = s1 := by
            injection h
          subst hs
          rw [if_pos (by simp)]
    · rw [if_pos h1] at h
      cases h
  have keyDash : ∀ s1, DashModules.enable state id = .ok s1 →
      DashModules.enable s1 id = .ok s1 := by
    intro s1 h
    unfold DashModules.enable at h ⊢
    generalize hmi : DashModules.moduleInfo id = mi at h ⊢
    cases mi with
    | none => cases h
    | some info =>
      dsimp only at h ⊢
      by_cases h2 : id ∈ CORE_MODULES
      · rw [if_pos h2] at h
        cases h
      · rw [if_neg h2] at h ⊢
        by_cases h3 : id ∈ state
        · rw [if_pos h3] at h
          have hs : state = s1 := by
            injection h
          subst hs
          rw [if_pos h3]
        · rw [if_neg h3] at h
          have hs : state ++ [id] = s1 := by
            injection h
          subst hs
          rw [if_pos (by simp)]
  refine ⟨?_, key, keyDash⟩
  generalize hr : enable dirs metaOf state id = r
  cases r with
  | error e =>
    simp only [stateAfter]
    rw [hr]
  | ok s1 =>
    have h2 := key s1 hr
    simp only [stateAfter]
    rw [h2]

/-- C6 witness: enabling `vpn` on the freshly updated set is a successful
no-op in both implementations. -/
theorem enable_idempotent_amended_w :
    enable ["core", "dashboard", "vpn"] (fun _ => none)
        ["core", "dashboard", "vpn"] "vpn"
      = .ok ["core", "dashboard", "vpn"]
    ∧ DashModules.enable ["core", "dashboard", "vpn"] "vpn"
      = .ok ["core", "dashboard", "vpn"] := by
  constructor
  · exact (enable_idempotent_amended ["core", "dashboard", "vpn"] (fun _ => none)
      ["core", "dashboard"] "vpn").2.1 ["core", "dashboard", "vpn"] rfl
  · exact (enable_idempotent_amended ["core", "dashboard", "vpn"] (fun _ => none)
      ["core", "dashboard"] "vpn").2.2 ["core", "dashboard", "vpn"] rfl

/-- C9 counterexample: a module env var `DANGER_KEY` marked both
`dangerous` and `config_editable` appears in the derived schema with
`dangerous = true` (so it is rendered read-only), yet the server-side
write allowlist accepts a `PUT /api/config` for it — the write through
the config surface **is** permitted. -/
theorem dangerous_key_write_accepted :
    (∃ g ∈ buildConfigSchema
        [{ id := "mod", name := "Mod", required := false,
           env_vars := some [("DANGER_KEY",
             { config_editable := some true, dangerous := some true })],
           enabled := true }],
      ∃ f ∈ g.keys, f.key = "DANGER_KEY" ∧ f.dangerous = true)
    ∧ putConfig
        (getAllowedConfigKeys
          [{ id := "mod", name := "Mod", required := false,
             env_vars := some [("DANGER_KEY",
               { config_editable := some true, dangerous := some true })],
             enabled := true }])
        [("DANGER_KEY", "v")]
      = .ok [("DANGER_KEY", "v")] := by
  exact ⟨by decide, rfl⟩

/-- C9 (amended): a field marked `dangerous` is always rendered read-only
regardless of `configEditable`; the server-side write allowlist, however,
does not consult the `dangerous` flag, so a dangerous key whose descriptor
is `config_editable` is still accepted by `PUT /api/config`. -/
theorem dangerous_readonly_amended :
    ∀ (mods : List RichModule) (g : SchemaGroup) (f : SchemaField),
      (g ∈ buildConfigSchema mods → f ∈ g.keys → f.dangerous = true →
        renderReadonly f = true)
      ∧ (∀ (m : RichModule) (evs : List (String × EnvVarDef)) (d : EnvVarDef)
            (k v : String),
          m ∈ mods → m.env_vars = some evs → (k, d) ∈ evs →
          d.config_editable = some true → hasBadChars v = false →
          putConfig (getAllowedConfigKeys mods) [(k, v)] = .ok [(k, v)]) := by
  intro mods g f
  constructor
  · intro _ _ hf
    unfold renderReadonly
    rw [hf]
    rfl
  · intro m evs d k v hm hev hkd hce hv
    exact putConfig_single_ok _ _ _
      (mem_allowed_of_declared mods m evs d k hm hev hkd hce) hv

/-- C9 witness: the dangerous `SB_ROOT` field of the General group renders
read-only, and a dangerous-but-editable module key is accepted for
writing. -/
theorem dangerous_readonly_amended_w :
    renderReadonly ⟨"SB_ROOT", "Install Path",
        "Where SparkBox is installed (don't change this)", true, "text", none⟩
      = true
    ∧ putConfig
        (getAllowedConfigKeys
          [{ id := "mod", name := "Mod", required := false,
             env_vars := some [("D_KEY",
               { config_editable := some true, dangerous := some true })],
             enabled := false }])
        [("D_KEY", "w")]
      = .ok [("D_KEY", "w")] := by
  constructor
  · exact (dangerous_readonly_amended [] generalGroup
      ⟨"SB_ROOT", "Install Path",
        "Where SparkBox is installed (don't change this)", true, "text", none⟩).1
      (by decide) (by decide) rfl
  · exact (dangerous_readonly_amended
      [{ id := "mod", name := "Mod", required := false,
         env_vars := some [("D_KEY",
           { config_editable := some true, dangerous := some true })],
         enabled := false }] generalGroup
      ⟨"SB_ROOT", "Install Path",
        "Where SparkBox is installed (don't change this)", true, "text", none⟩).2
      { id := "mod", name := "Mod", required := false,
        env_vars := some [("D_KEY",
          { config_editable := some true, dangerous := some true })],
        enabled := false }
      [("D_KEY", { config_editable := some true, dangerous := some true })]
      { config_editable := some true, dangerous := some true }
      "D_KEY" "w" (by decide) rfl (by decide) rfl (by decide)

/-- C3 counterexample: a running container named `postgres` (no `sb-`
prefix) fails the managed-prefix validation, yet `getContainerStats` and
`streamLogs` act on it and return results instead of NotFound — those two
operations never call `validateSparkBoxContainer`. -/
theorem stats_skip_validation_cex :
    validateSparkBoxContainer
        [{ Id := "aaaa1111", Names := ["/postgres"],
           rawStats := ⟨0, 0, 0, 0, 0, 0, 0⟩ }] "postgres" = false
    ∧ (getContainerStats
        [{ Id := "aaaa1111", Names := ["/postgres"],
           rawStats := ⟨0, 0, 0, 0, 0, 0, 0⟩ }] "postgres").isOk = true
    ∧ streamLogs
        [{ Id := "aaaa1111", Names := ["/postgres"],
           rawStats := ⟨0, 0, 0, 0, 0, 0, 0⟩ }] "postgres"
      = .ok "aaaa1111" := by
  refine ⟨by decide, ?_, rfl⟩
  rfl

/-- C3 (amended): `start`, `stop` and `restart` validate the identifier
first and yield NotFound without acting when validation fails;
`getContainerStats` and `streamLogs` perform no managed-prefix validation
— they operate directly on whatever container the daemon resolves the
identifier to, `sb-`-prefixed or not. -/
theorem gateway_validation_amended :
    ∀ (d : List ContainerInfo) (cid : String),
      (validateSparkBoxContainer d cid = false →
        stopContainer d cid = .error .notFound
        ∧ startContainer d cid = .error .notFound
        ∧ restartContainer d cid = .error .notFound)
      ∧ (∀ c, resolveContainer d cid = some c →
          getContainerStats d cid = .ok (computeStats c.rawStats)
          ∧ streamLogs d cid = .ok c.Id) := by
  intro d cid
  constructor
  · intro h
    refine ⟨?_, ?_, ?_⟩
    · unfold stopContainer
      rw [h]
      rfl
    · unfold startContainer
      rw [h]
      rfl
    · unfold restartContainer
      rw [h]
      rfl
  · intro c hres
    constructor
    · unfold getContainerStats
      rw [hres]
    · unfold streamLogs
      rw [hres]

/-- C3 witness: on a daemon holding only the unmanaged `postgres`
container, `stopContainer` yields NotFound while `getContainerStats`
returns that container's computed stats. -/
theorem gateway_validation_amended_w :
    stopContainer
        [{ Id := "aaaa1111", Names := ["/postgres"],
           rawStats := ⟨40, 20, 100, 60, 2, 100, 400⟩ }] "postgres"
      = .error .notFound
    ∧ getContainerStats
        [{ Id := "aaaa1111", Names := ["/postgres"],
           rawStats := ⟨40, 20, 100, 60, 2, 100, 400⟩ }] "postgres"
      = .ok (computeStats ⟨40, 20, 100, 60, 2, 100, 400⟩) := by
  constructor
  · exact ((gateway_validation_amended
      [{ Id := "aaaa1111", Names := ["/postgres"],
         rawStats := ⟨40, 20, 100, 60, 2, 100, 400⟩ }] "postgres").1
      (by decide)).1
  · exact ((gateway_validation_amended
      [{ Id := "aaaa1111", Names := ["/postgres"],
         rawStats := ⟨40, 20, 100, 60, 2, 100, 400⟩ }] "postgres").2
      { Id := "aaaa1111", Names := ["/postgres"],
        rawStats := ⟨40, 20, 100, 60, 2, 100, 400⟩ } (by decide)).1

theorem fsErase_cons_self (n : String) (b : Bytes) (st : FsState) :
    fsErase n ((n, b) :: st) = fsErase n st := by
  simp [fsErase, List.filter_cons]

theorem fsErase_cons_ne (n m : String) (b : Bytes) (st : FsState)
    (h : (m == n) = false) :
    fsErase n ((m, b) :: st) = (m, b) :: fsErase n st := by
  simp [fsErase, List.filter_cons, h]

/-- The final filesystem state of the encrypted `create` branch, on a
directory not already holding this backup's files. -/
theorem create_state_eq (ts : String) (tarBytes encBytes : Bytes) (st : FsState)
    (htar : fsLookup (BACKUP_PRE ++ ts ++ ".tar.gz") st = none)
    (henc : fsLookup (BACKUP_PRE ++ ts ++ ".tar.gz.enc") st = none) :
    fsUnlink (BACKUP_PRE ++ ts ++ ".tar.gz")
      (fsWrite (BACKUP_PRE ++ ts ++ ".tar.gz.enc") encBytes
        (fsWrite (BACKUP_PRE ++ ts ++ ".tar.gz") tarBytes st))
    = (BACKUP_PRE ++ ts ++ ".tar.gz.enc", encBytes) :: st := by
  have hte : ((BACKUP_PRE ++ ts ++ ".tar.gz") == (BACKUP_PRE ++ ts ++ ".tar.gz.enc"))
      = false := by
    simp [tarName_ne_encName ts]
  have het : ((BACKUP_PRE ++ ts ++ ".tar.gz.enc") == (BACKUP_PRE ++ ts ++ ".tar.gz"))
      = false := by
    simp [Ne.symm (tarName_ne_encName ts)]
  have h1 : fsWrite (BACKUP_PRE ++ ts ++ ".tar.gz") tarBytes st
      = (BACKUP_PRE ++ ts ++ ".tar.gz", tarBytes) :: st := by
    unfold fsWrite
    rw [fsErase_of_lookup_none htar]
  rw [h1]
  have h2 : fsWrite (BACKUP_PRE ++ ts ++ ".tar.gz.enc") encBytes
      ((BACKUP_PRE ++ ts ++ ".tar.gz", tarBytes) :: st)
      = (BACKUP_PRE ++ ts ++ ".tar.gz.enc", encBytes)
        :: (BACKUP_PRE ++ ts ++ ".tar.gz", tarBytes) :: st := by
    unfold fsWrite
    rw [fsErase_cons_ne _ _ _ _ hte, fsErase_of_lookup_none henc]
  rw [h2]
  unfold fsUnlink
  rw [fsErase_cons_ne _ _ _ _ het, fsErase_cons_self, fsErase_of_lookup_none htar]

/-- The encrypted backup filename matches the `list()` pattern. -/
theorem encName_matches (ts : String) :
    (strStartsWith (BACKUP_PRE ++ ts ++ ".tar.gz.enc") BACKUP_PRE
      && (strEndsWith (BACKUP_PRE ++ ts ++ ".tar.gz.enc") ".tar.gz"
          || strEndsWith (BACKUP_PRE ++ ts ++ ".tar.gz.enc") ".tar.gz.enc")) = true := by
  rw [strStartsWith_backup ts ".tar.gz.enc", strEndsWith_self_append]
  simp

/-- The encrypted backup filename carries the `.enc` marker. -/
theorem encName_enc_suffix (ts : String) :
    strEndsWith (BACKUP_PRE ++ ts ++ ".tar.gz.enc") ".enc" = true := by
  have h : (BACKUP_PRE ++ ts ++ ".tar.gz.enc")
      = ((BACKUP_PRE ++ ts) ++ ".tar.gz") ++ ".enc" := by
    rw [str_append_assoc (BACKUP_PRE ++ ts) ".tar.gz" ".enc"]
    rfl
  rw [h]
  exact strEndsWith_self_append _ _

/-- C8: with a configured secret and `encrypt = true`, `create` persists
the encrypted file as `nonce ∥ authTag ∥ ciphertext` using the per-call
random nonce, marks the result encrypted, ends with exactly the one new
encrypted file on disk (the plaintext tar of this backup is gone), so
`list()` gains exactly one new entry, encrypted — and the event trace
shows the plaintext unlinked only after the encrypted file is fully
written. -/
theorem create_encrypted_backup (aead : AEAD) (kdf : String → Bytes)
    (s ts : String) (tarBytes iv : Bytes) (st : FsState)
    (hs : s ≠ "")
    (htar : fsLookup (BACKUP_PRE ++ ts ++ ".tar.gz") st = none)
    (henc : fsLookup (BACKUP_PRE ++ ts ++ ".tar.gz.enc") st = none) :
    (create aead kdf (some s) ts tarBytes iv true st).1
        = ⟨BACKUP_PRE ++ ts ++ ".tar.gz.enc", true⟩
    ∧ (create aead kdf (some s) ts tarBytes iv true st).2.1
        = (BACKUP_PRE ++ ts ++ ".tar.gz.enc",
           iv ++ (aead.enc (kdf s) iv tarBytes).2
              ++ (aead.enc (kdf s) iv tarBytes).1) :: st
    ∧ fsLookup (BACKUP_PRE ++ ts ++ ".tar.gz")
        (create aead kdf (some s) ts tarBytes iv true st).2.1 = none
    ∧ backupList (create aead kdf (some s) ts tarBytes iv true st).2.1
        = ⟨BACKUP_PRE ++ ts ++ ".tar.gz.enc", true⟩ :: backupList st
    ∧ (⟨BACKUP_PRE ++ ts ++ ".tar.gz.enc", true⟩ : BackupEntry) ∉ backupList st
    ∧ (create aead kdf (some s) ts tarBytes iv true st).2.2
        = [.write (BACKUP_PRE ++ ts ++ ".tar.gz") tarBytes,
           .write (BACKUP_PRE ++ ts ++ ".tar.gz.enc")
             (iv ++ (aead.enc (kdf s) iv tarBytes).2
                 ++ (aead.enc (kdf s) iv tarBytes).1),
           .unlink (BACKUP_PRE ++ ts ++ ".tar.gz")] := by
  have hcreate : create aead kdf (some s) ts tarBytes iv true st
      = (⟨BACKUP_PRE ++ ts ++ ".tar.gz.enc", true⟩,
         (BACKUP_PRE ++ ts ++ ".tar.gz.enc",
          iv ++ (aead.enc (kdf s) iv tarBytes).2
             ++ (aead.enc (kdf s) iv tarBytes).1) :: st,
         [.write (BACKUP_PRE ++ ts ++ ".tar.gz") tarBytes,
          .write (BACKUP_PRE ++ ts ++ ".tar.gz.enc")
            (iv ++ (aead.enc (kdf s) iv tarBytes).2
                ++ (aead.enc (kdf s) iv tarBytes).1),
          .unlink (BACKUP_PRE ++ ts ++ ".tar.gz")]) := by
    unfold create
    dsimp only
    rw [if_neg hs]
    rw [create_state_eq ts tarBytes _ st htar henc]
  have het : ((BACKUP_PRE ++ ts ++ ".tar.gz.enc") == (BACKUP_PRE ++ ts ++ ".tar.gz"))
      = false := by
    simp [Ne.symm (tarName_ne_encName ts)]
  refine ⟨by rw [hcreate], by rw [hcreate], ?_, ?_, ?_, by rw [hcreate]⟩
  · rw [hcreate]
    dsimp only
    rw [fsLookup_cons_other _ _ het]
    exact htar
  · rw [hcreate]
    dsimp only
    unfold backupList
    rw [List.filterMap_cons, encName_matches ts,
      if_pos (rfl : (true : Bool) = true)]
    dsimp only
    rw [encName_enc_suffix ts]
  · intro hmem
    unfold backupList at hmem
    obtain ⟨p, hp, heq⟩ := List.mem_filterMap.mp hmem
    by_cases hc : (strStartsWith p.1 BACKUP_PRE
        && (strEndsWith p.1 ".tar.gz" || strEndsWith p.1 ".tar.gz.enc")) = true
    · rw [if_pos hc] at heq
      have hpe : p.1 = BACKUP_PRE ++ ts ++ ".tar.gz.enc" := by
        have := congrArg BackupEntry.filename (Option.some.inj heq)
        exact this
      have hnot := fsLookup_none_not_mem henc p.2
      apply hnot
      rw [← hpe]
      exact hp
    · rw [if_neg hc] at heq
      cases heq

/-- C8 witness: a concrete encrypted backup on an empty backups directory
(idealized cipher: ciphertext = plaintext, constant tag) yields the
encrypted result and exactly one `list()` entry. -/
theorem create_encrypted_backup_w :
    (create ⟨fun _ _ p => (p, List.replicate 16 7),
             fun k _ t c =>
               if k = [3] ∧ t = List.replicate 16 7 then some c else none⟩
       (fun s => [s.length]) (some "abc") "t" [1, 2, 3]
       (List.replicate 16 0) true []).1
      = ⟨BACKUP_PRE ++ "t" ++ ".tar.gz.enc", true⟩
    ∧ backupList
        (create ⟨fun _ _ p => (p, List.replicate 16 7),
                 fun k _ t c =>
                   if k = [3] ∧ t = List.replicate 16 7 then some c else none⟩
           (fun s => [s.length]) (some "abc") "t" [1, 2, 3]
           (List.replicate 16 0) true []).2.1
      = [⟨BACKUP_PRE ++ "t" ++ ".tar.gz.enc", true⟩] := by
  have h := create_encrypted_backup
    ⟨fun _ _ p => (p, List.replicate 16 7),
     fun k _ t c => if k = [3] ∧ t = List.replicate 16 7 then some c else none⟩
    (fun s => [s.length]) "abc" "t" [1, 2, 3] (List.replicate 16 0) []
    (by decide) rfl rfl
  refine ⟨h.1, ?_⟩
  rw [h.2.2.2.1]
  rfl

/-- C4: given the cipher's AEAD contract at the values involved — the tag
authenticates under the derivation of the creating secret and rejects
under the derivation of any other secret — `decrypt` of an archive
produced by `create` with the same secret returns the original archive
bytes exactly, while `decrypt` with the different secret fails with the
distinct AuthenticationError rather than returning any plaintext. -/
theorem backup_crypto_roundtrip (aead : AEAD) (kdf : String → Bytes)
    (s s2 ts : String) (tarBytes iv : Bytes) (st : FsState)
    (hs : s ≠ "") (hs2 : s2 ≠ "")
    (hts : ∀ c ∈ ts.data, c ≠ '/')
    (hiv : iv.length = IV_LENGTH)
    (htag : (aead.enc (kdf s) iv tarBytes).2.length = AUTH_TAG_LENGTH)
    (hdec : aead.dec (kdf s) iv (aead.enc (kdf s) iv tarBytes).2
        (aead.enc (kdf s) iv tarBytes).1 = some tarBytes)
    (hbad : aead.dec (kdf s2) iv (aead.enc (kdf s) iv tarBytes).2
        (aead.enc (kdf s) iv tarBytes).1 = none) :
    decrypt aead kdf (some s)
        (create aead kdf (some s) ts tarBytes iv true st).1.filename
        (create aead kdf (some s) ts tarBytes iv true st).2.1
      = .ok (tarBytes,
          strReplaceFirst (BACKUP_PRE ++ ts ++ ".tar.gz.enc") ".enc" "",
          fsWrite (strReplaceFirst (BACKUP_PRE ++ ts ++ ".tar.gz.enc") ".enc" "")
            tarBytes
            (create aead kdf (some s) ts tarBytes iv true st).2.1)
    ∧ decrypt aead kdf (some s2)
        (create aead kdf (some s) ts tarBytes iv true st).1.filename
        (create aead kdf (some s) ts tarBytes iv true st).2.1
      = .error .authenticationError := by
  have hcreate : create aead kdf (some s) ts tarBytes iv true st
      = (⟨BACKUP_PRE ++ ts ++ ".tar.gz.enc", true⟩,
         fsUnlink (BACKUP_PRE ++ ts ++ ".tar.gz")
           (fsWrite (BACKUP_PRE ++ ts ++ ".tar.gz.enc")
             (iv ++ (aead.enc (kdf s) iv tarBytes).2
                 ++ (aead.enc (kdf s) iv tarBytes).1)
             (fsWrite (BACKUP_PRE ++ ts ++ ".tar.gz") tarBytes st)),
         [.write (BACKUP_PRE ++ ts ++ ".tar.gz") tarBytes,
          .write (BACKUP_PRE ++ ts ++ ".tar.gz.enc")
            (iv ++ (aead.enc (kdf s) iv tarBytes).2
                ++ (aead.enc (kdf s) iv tarBytes).1),
          .unlink (BACKUP_PRE ++ ts ++ ".tar.gz")]) := by
    unfold create
    dsimp only
    rw [if_neg hs]
  have hlook : fsLookup (BACKUP_PRE ++ ts ++ ".tar.gz.enc")
      (create aead kdf (some s) ts tarBytes iv true st).2.1
      = some (iv ++ (aead.enc (kdf s) iv tarBytes).2
                 ++ (aead.enc (kdf s) iv tarBytes).1) := by
    rw [hcreate]
    dsimp only
    unfold fsUnlink
    rw [fsLookup_erase_other _ (Ne.symm (tarName_ne_encName ts))]
    exact fsLookup_write_self _ _ _
  have hname : jsBasename (BACKUP_PRE ++ ts ++ ".tar.gz.enc")
      = BACKUP_PRE ++ ts ++ ".tar.gz.enc" :=
    jsBasename_backup_name ts ".tar.gz.enc" hts (by decide)
  have hsuf : strEndsWith (BACKUP_PRE ++ ts ++ ".tar.gz.enc") ".tar.gz.enc"
      = true := strEndsWith_self_append _ _
  have htake1 : (iv ++ (aead.enc (kdf s) iv tarBytes).2
      ++ (aead.enc (kdf s) iv tarBytes).1).take IV_LENGTH = iv := by
    rw [List.append_assoc]
    exact take_len_append _ _ hiv
  have hdrop1 : ((iv ++ (aead.enc (kdf s) iv tarBytes).2
      ++ (aead.enc (kdf s) iv tarBytes).1).drop IV_LENGTH).take AUTH_TAG_LENGTH
      = (aead.enc (kdf s) iv tarBytes).2 := by
    rw [List.append_assoc, drop_len_append _ _ hiv]
    exact take_len_append _ _ htag
  have hdrop2 : (iv ++ (aead.enc (kdf s) iv tarBytes).2
      ++ (aead.enc (kdf s) iv tarBytes).1).drop (IV_LENGTH + AUTH_TAG_LENGTH)
      = (aead.enc (kdf s) iv tarBytes).1 := by
    apply drop_len_append
    rw [List.length_append, hiv, htag]
  constructor
  · rw [hcreate]
    dsimp only
    unfold decrypt
    dsimp only
    rw [hname, hsuf]
    rw [if_neg (by simp)]
    rw [if_neg hs]
    rw [hcreate] at hlook
    dsimp only at hlook
    rw [hlook]
    dsimp only
    rw [htake1, hdrop1, hdrop2, hdec]
  · rw [hcreate]
    dsimp only
    unfold decrypt
    dsimp only
    rw [hname, hsuf]
    rw [if_neg (by simp)]
    rw [if_neg hs2]
    rw [hcreate] at hlook
    dsimp only at hlook
    rw [hlook]
    dsimp only
    rw [htake1, hdrop1, hdrop2, hbad]

/-- C4 witness: with the idealized cipher (ciphertext = plaintext,
constant tag, decryption succeeding only under the creating key) and a
length-based key derivation, decrypting the created archive with the
creating secret returns the archive bytes and decrypting with another
secret fails with AuthenticationError. -/
theorem backup_crypto_roundtrip_w :
    decrypt ⟨fun _ _ p => (p, List.replicate 16 7),
             fun k _ t c =>
               if k = [3] ∧ t = List.replicate 16 7 then some c else none⟩
        (fun s => [s.length]) (some "abc")
        (create ⟨fun _ _ p => (p, List.replicate 16 7),
                 fun k _ t c =>
                   if k = [3] ∧ t = List.replicate 16 7 then some c else none⟩
           (fun s => [s.length]) (some "abc") "t" [9, 8]
           (List.replicate 16 0) true []).1.filename
        (create ⟨fun _ _ p => (p, List.replicate 16 7),
                 fun k _ t c =>
                   if k = [3] ∧ t = List.replicate 16 7 then some c else none⟩
           (fun s => [s.length]) (some "abc") "t" [9, 8]
           (List.replicate 16 0) true []).2.1
      = .ok ([9, 8],
          strReplaceFirst (BACKUP_PRE ++ "t" ++ ".tar.gz.enc") ".enc" "",
          fsWrite (strReplaceFirst (BACKUP_PRE ++ "t" ++ ".tar.gz.enc") ".enc" "")
            [9, 8]
            (create ⟨fun _ _ p => (p, List.replicate 16 7),
                     fun k _ t c =>
                       if k = [3] ∧ t = List.replicate 16 7 then some c else none⟩
               (fun s => [s.length]) (some "abc") "t" [9, 8]
               (List.replicate 16 0) true []).2.1)
    ∧ decrypt ⟨fun _ _ p => (p, List.replicate 16 7),
               fun k _ t c =>
                 if k = [3] ∧ t = List.replicate 16 7 then some c else none⟩
        (fun s => [s.length]) (some "wxyz")
        (create ⟨fun _ _ p => (p, List.replicate 16 7),
                 fun k _ t c =>
                   if k = [3] ∧ t = List.replicate 16 7 then some c else none⟩
           (fun s => [s.length]) (some "abc") "t" [9, 8]
           (List.replicate 16 0) true []).1.filename
        (create ⟨fun _ _ p => (p, List.replicate 16 7),
                 fun k _ t c =>
                   if k = [3] ∧ t = List.replicate 16 7 then some c else none⟩
           (fun s => [s.length]) (some "abc") "t" [9, 8]
           (List.replicate 16 0) true []).2.1
      = .error .authenticationError :=
  backup_crypto_roundtrip
    ⟨fun _ _ p => (p, List.replicate 16 7),
     fun k _ t c => if k = [3] ∧ t = List.replicate 16 7 then some c else none⟩
    (fun s => [s.length]) "abc" "wxyz" "t" [9, 8] (List.replicate 16 0) []
    (by decide) (by decide) (by decide) (by decide) (by decide)
    (by decide) (by decide)
